import Mathlib

/-
Verification of the command-execution safety boundary and agent run-loop of
the ai-support-agent CLI.  The definitions below are a shallow embedding of
the TypeScript source: command-executor (guards, handlers, shell runner),
utils (parseString / parseNumber / getErrorMessage), and the agent runner
(poll loop, single-flight flag, stop handle).  JavaScript numbers are
modelled as rationals, thrown exceptions as the Except monad carrying the
error message, and the host OS (filesystem, spawned processes, kill) as an
explicit World record of oracles.
-/

namespace AgentCli

/-- Model of a JavaScript runtime value as it occurs in a command payload
(a TS Record of unknowns).  NaN is a separate constructor so that the isNaN
test in parseNumber is expressible; all other numbers are rationals. -/
inductive JSValue where
  | str (s : String)
  | num (q : ℚ)
  | nan
  | jsBool (b : Bool)
  | jsNull
  | undefined
deriving DecidableEq

/-- utils.ts parseString: a value is accepted iff it is a string of positive
length; the empty string is mapped to null. -/
def parseString : JSValue → Option String
  | JSValue.str s => if s.length > 0 then some s else none
  | _ => none

/-- utils.ts parseNumber: a value is accepted iff it is a number and not NaN. -/
def parseNumber : JSValue → Option ℚ
  | JSValue.num q => some q
  | _ => none

/-- utils.ts getErrorMessage: thrown faults are modelled by their message
string, on which getErrorMessage is the identity. -/
def getErrorMessage (e : String) : String := e

/-- JavaScript truthiness of a payload value (used for createDirectories). -/
def truthy : JSValue → Bool
  | JSValue.str s => s.length > 0
  | JSValue.num q => decide (q ≠ 0)
  | JSValue.nan => false
  | JSValue.jsBool b => b
  | JSValue.jsNull => false
  | JSValue.undefined => false

/-- One entry of a file_list result (name, kind, size, mtime ISO string). -/
structure DirItem where
  name : String
  type : String
  size : Nat
  modified : String
deriving DecidableEq

/-- The data field of a CommandResult: absent, a plain string, or the
structured listing returned by file_list. -/
inductive ResultData where
  | noData
  | str (s : String)
  | listing (items : List DirItem) (truncated : Bool) (total : Nat)
deriving DecidableEq

/-- CommandResult from types.ts: success flag, optional data, optional
error message. -/
structure CommandResult where
  success : Bool
  data : ResultData := ResultData.noData
  error : Option String := none
deriving DecidableEq

/-- A command payload: the union of the fields consumed by the six
handlers; a field that the server did not send is undefined. -/
structure Payload where
  path : JSValue := JSValue.undefined
  command : JSValue := JSValue.undefined
  timeout : JSValue := JSValue.undefined
  cwd : JSValue := JSValue.undefined
  content : JSValue := JSValue.undefined
  createDirectories : JSValue := JSValue.undefined
  pid : JSValue := JSValue.undefined
  signal : JSValue := JSValue.undefined
deriving DecidableEq

/-- Modelled from the spec: the numeric limits exported by the constants
module, which is not under src/ (only its import sites are); the spec fixes
their roles (default / maximum command timeout, output and file size caps,
directory entry cap, process-list timeout) but not their values, so they
are abstract fields. -/
structure Constants where
  CMD_DEFAULT_TIMEOUT : ℚ
  MAX_CMD_TIMEOUT : ℚ
  MAX_OUTPUT_SIZE : Nat
  MAX_FILE_READ_SIZE : Nat
  MAX_FILE_WRITE_SIZE : Nat
  MAX_DIR_ENTRIES : Nat
  PROCESS_LIST_TIMEOUT : ℚ

/- ------------------------------------------------------------------ -/
/- CommandValidator: the five blocked-command regular expressions.     -/
/- Each JS regex is embedded as a decidable position matcher; test      -/
/- scans every start position, tracking the previous character for     -/
/- word boundaries.                                                    -/
/- ------------------------------------------------------------------ -/

/-- JS regex word character class: ASCII letters, digits, underscore. -/
def isWordChar (c : Char) : Bool := c.isAlpha || c.isDigit || c == '_'

/-- JS regex whitespace class (the full ECMAScript set). -/
def isJsSpace (c : Char) : Bool :=
  c == ' ' || c == '\t' || c == '\n' || c == '\r' ||
  c.toNat == 0xb || c.toNat == 0xc || c.toNat == 0xa0 || c.toNat == 0x1680 ||
  (0x2000 ≤ c.toNat && c.toNat ≤ 0x200a) ||
  c.toNat == 0x2028 || c.toNat == 0x2029 || c.toNat == 0x202f ||
  c.toNat == 0x205f || c.toNat == 0x3000 || c.toNat == 0xfeff

/-- JS line terminators, which the regex dot does not match. -/
def isLineTerm (c : Char) : Bool :=
  c == '\n' || c == '\r' || c.toNat == 0x2028 || c.toNat == 0x2029

/-- Match a literal character sequence, then continue with k. -/
def litThen : List Char → (List Char → Bool) → List Char → Bool
  | [], k, s => k s
  | _ :: _, _, [] => false
  | c :: cs, k, d :: ds => c == d && litThen cs k ds

/-- Regex backslash-s star: skip any number of whitespace characters,
then continue with k (existential semantics of test). -/
def spaceStarThen (k : List Char → Bool) : List Char → Bool
  | [] => k []
  | c :: cs => k (c :: cs) || (isJsSpace c && spaceStarThen k cs)

/-- Regex backslash-s plus: at least one whitespace character, then k. -/
def spacePlusThen (k : List Char → Bool) : List Char → Bool
  | [] => false
  | c :: cs => isJsSpace c && spaceStarThen k cs

/-- Regex dot star: skip any number of non-line-terminator characters,
then continue with k. -/
def dotStarThen (k : List Char → Bool) : List Char → Bool
  | [] => k []
  | c :: cs => k (c :: cs) || (!isLineTerm c && dotStarThen k cs)

/-- A word boundary immediately before a word character: holds at the
string start or after a non-word character. -/
def atWordBoundary : Option Char → Bool
  | none => true
  | some c => !isWordChar c

/-- A word boundary immediately after a word character, looking at the
remaining input; also the negative lookahead (?! backslash-w). -/
def endNotWord : List Char → Bool
  | [] => true
  | c :: _ => !isWordChar c

/-- Trivially succeeding continuation (end of the pattern). -/
def matchDone : List Char → Bool := fun _ => true

/-- Position matcher for the recursive-root-deletion pattern
(word boundary, rm, spaces, -rf, spaces, slash, not followed by a word
character). -/
def rmPatternHere (prev : Option Char) (s : List Char) : Bool :=
  atWordBoundary prev &&
    litThen ("rm".toList)
      (spacePlusThen (litThen ("-rf".toList)
        (spacePlusThen (litThen ("/".toList) endNotWord)))) s

/-- Position matcher for the mkfs pattern (word boundary, mkfs, word
boundary). -/
def mkfsPatternHere (prev : Option Char) (s : List Char) : Bool :=
  atWordBoundary prev && litThen ("mkfs".toList) endNotWord s

/-- Position matcher for the dd-onto-block-device pattern. -/
def ddPatternHere (prev : Option Char) (s : List Char) : Bool :=
  atWordBoundary prev &&
    litThen ("dd".toList)
      (spacePlusThen (dotStarThen (litThen ("of=/dev/".toList) matchDone))) s

/-- Position matcher for redirection onto a block device node. -/
def redirectPatternHere (_ : Option Char) (s : List Char) : Bool :=
  litThen (">".toList)
    (spaceStarThen (litThen ("/dev/sd".toList)
      (fun t =>
        match t with
        | [] => false
        | c :: _ => 97 ≤ c.toNat && c.toNat ≤ 122))) s

/-- Position matcher for the shell fork-bomb idiom. -/
def forkBombPatternHere (_ : Option Char) (s : List Char) : Bool :=
  litThen (":()".toList)
    (spaceStarThen (litThen ("\x7b".toList)
      (dotStarThen (litThen ("\x7d;".toList)
        (spaceStarThen (litThen (":".toList) matchDone)))))) s

/-- Scan every start position of the input, remembering the previous
character; succeeds iff the position matcher succeeds somewhere.  This is
the semantics of RegExp.test. -/
def scanFrom (m : Option Char → List Char → Bool) : Option Char → List Char → Bool
  | prev, [] => m prev []
  | prev, c :: cs => m prev (c :: cs) || scanFrom m (some c) cs

/-- RegExp.test for one embedded pattern. -/
def regexTest (m : Option Char → List Char → Bool) (s : String) : Bool :=
  scanFrom m none s.toList

/-- BLOCKED_COMMAND_PATTERNS: each matcher paired with the display string
JavaScript produces when the RegExp is interpolated into the error
message. -/
def BLOCKED_COMMAND_PATTERNS : List ((Option Char → List Char → Bool) × String) :=
  [(rmPatternHere, "/\\brm\\s+-rf\\s+\\/(?!\\w)/"),
   (mkfsPatternHere, "/\\bmkfs\\b/"),
   (ddPatternHere, "/\\bdd\\s+.*of=\\/dev\\//"),
   (redirectPatternHere, "/>\\s*\\/dev\\/sd[a-z]/"),
   (forkBombPatternHere, "/:\\(\\)\\s*\\\x7b.*\\\x7d;\\s*:/")]

/-- validateCommand: returns the blocked-pattern message of the first
matching pattern, or none when no pattern matches. -/
def validateCommand (command : String) : Option String :=
  (BLOCKED_COMMAND_PATTERNS.find? (fun pat => regexTest pat.fst command)).map
    (fun pat => "Blocked dangerous command pattern: " ++ pat.snd)

/- ------------------------------------------------------------------ -/
/- PathGuard                                                           -/
/- ------------------------------------------------------------------ -/

/-- JS String.prototype.startsWith, over the character lists (the core
String.startsWith is byte-level and kernel-opaque). -/
def strStartsWith (s pre : String) : Bool := pre.data.isPrefixOf s.data

/-- JS String.prototype.endsWith, over the character lists. -/
def strEndsWith (s suf : String) : Bool := suf.data.isSuffixOf s.data

/-- Abstract filesystem and path resolver.  realpath returns none when the
path cannot be canonicalised (it does not exist, or resolution fails);
resolve, dirname and basename abstract the Node path functions, which
depend on the process working directory and platform. -/
structure FS where
  realpath : String → Option String
  resolve : String → String
  dirname : String → String
  basename : String → String

/-- Node path.join for the two-argument uses in the source (a canonical
directory joined with a base name, and the home directory joined with a
relative subdirectory): insert a separator unless one is already there. -/
def pathJoin (a b : String) : String :=
  if strEndsWith a ("/") then a ++ b else a ++ "/" ++ b

/-- The fixed OS-sensitive blocked path roots. -/
def BLOCKED_PATH_PREFIXES : List String :=
  ["/etc/", "/proc/", "/sys/", "/dev/", "/private/etc/", "/private/var/db/"]

/-- The per-invocation sensitive home subdirectories, each joined with the
home directory and given a trailing slash. -/
def getSensitiveHomePaths (home : String) : List String :=
  [".ssh", ".aws", ".gnupg", ".config/gcloud"].map
    (fun d => pathJoin home d ++ "/")

/-- The canonical form a path is checked against: its realpath when it
exists; otherwise the realpath of its parent directory re-joined with the
base name; otherwise a naive absolute resolution. -/
def resolvedPath (fs : FS) (filePath : String) : String :=
  match fs.realpath filePath with
  | some r => r
  | none =>
    let parentDir := fs.dirname (fs.resolve filePath)
    match fs.realpath parentDir with
    | some realParent => pathJoin realParent (fs.basename filePath)
    | none => fs.resolve filePath

/-- The source strips one trailing slash from a blocked root before the
equality comparison. -/
def dropTrailingSlash (p : String) : String :=
  if strEndsWith p ("/") then p.dropRight 1 else p

/-- First blocked root (fixed roots first, then home subdirectories) that
the canonical path is equal to (slash stripped) or nested under. -/
def blockedMatch (home resolved : String) : Option String :=
  (BLOCKED_PATH_PREFIXES ++ getSensitiveHomePaths home).find?
    (fun pfx => resolved == dropTrailingSlash pfx || strStartsWith resolved pfx)

/-- validateFilePath: canonicalise, then reject when the canonical form
falls under a blocked root. -/
def validateFilePath (fs : FS) (home filePath : String) : Option String :=
  (blockedMatch home (resolvedPath fs filePath)).map
    (fun pfx => "Access denied: " ++ pfx ++ " paths are blocked")

/-- resolveAndValidatePath: parse the payload path (empty string counts as
absent), fall back to the default, fail when no path remains, then run the
path guard. -/
def resolveAndValidatePath (fs : FS) (home : String) (pathVal : JSValue)
    (defaultPath : Option String) : Sum String CommandResult :=
  match (parseString pathVal).orElse (fun _ => defaultPath) with
  | none => Sum.inr { success := false, error := some ("No file path specified") }
  | some filePath =>
    match validateFilePath fs home filePath with
    | some pathError => Sum.inr { success := false, error := some pathError }
    | none => Sum.inl filePath

/- ------------------------------------------------------------------ -/
/- ProcessRunner: shell spawning, output cap, single resolution        -/
/- ------------------------------------------------------------------ -/

/-- What executeShellCommand hands to spawn after all prechecks pass. -/
structure SpawnSpec where
  command : String
  cwd : String
  timeout : ℚ
deriving DecidableEq

/-- The prechecks of executeShellCommand, in source order: command string,
blocked-pattern validation, timeout bound, cwd path guard.  inl is an early
failure returned before any subprocess is spawned; inr is the spawn
request. -/
def executeShellCommandPre (C : Constants) (fs : FS) (home : String)
    (p : Payload) : Sum CommandResult SpawnSpec :=
  match parseString p.command with
  | none => Sum.inl { success := false, error := some ("No command specified") }
  | some command =>
    match validateCommand command with
    | some validationError => Sum.inl { success := false, error := some validationError }
    | none =>
      let rawTimeout := (parseNumber p.timeout).getD C.CMD_DEFAULT_TIMEOUT
      if rawTimeout < 1 ∨ rawTimeout > C.MAX_CMD_TIMEOUT then
        Sum.inl { success := false
                  error := some ("Timeout must be between 1 and " ++ toString C.MAX_CMD_TIMEOUT ++ "ms") }
      else
        let cwd := (parseString p.cwd).getD home
        match validateFilePath fs home cwd with
        | some cwdError => Sum.inl { success := false, error := some cwdError }
        | none => Sum.inr { command := command, cwd := cwd, timeout := rawTimeout }

/-- The asynchronous events a spawned process can deliver: stdout data,
stderr data, timeout-timer expiry, close with an exit code (null when the
process was killed by a signal), spawn error with an errno code. -/
inductive ProcEvent where
  | out (chunk : String)
  | errOut (chunk : String)
  | timeoutFire
  | closed (code : Option Int)
  | spawnErr (code : Option String) (msg : String)
deriving DecidableEq

/-- The mutable state of one executeShellCommand promise: the resolution
latch, whether clearTimeout has run, whether the timeout path force-killed
the process, the accumulated streams, and the combined byte counter. -/
structure ShellState where
  resolved : Bool := false
  timerCleared : Bool := false
  killedProc : Bool := false
  stdout : String := ""
  stderr : String := ""
  outputSize : Nat := 0
deriving DecidableEq

/-- The initial promise state. -/
def initShellState : ShellState := {}

/-- JS template rendering of a nullable exit code. -/
def renderExitCode : Option Int → String
  | some n => toString n
  | none => "null"

/-- The marker appended to data when the combined output exceeded the cap. -/
def truncationMarker : String := "\n... [output truncated]"

/-- The result built by the close handler: success on exit code 0, failure
otherwise with stderr (or a generic exit message) as the error; captured
stdout, plus the truncation marker when the cap was exceeded, is the data
in both cases. -/
def closeResult (C : Constants) (st : ShellState) (code : Option Int) : CommandResult :=
  let truncated := st.outputSize > C.MAX_OUTPUT_SIZE
  let suffix := if truncated then truncationMarker else ""
  if code = some 0 then
    { success := true, data := ResultData.str (st.stdout ++ suffix) }
  else
    { success := false
      data := ResultData.str (st.stdout ++ suffix)
      error := some (if st.stderr ≠ "" then st.stderr
        else "Process exited with code " ++ renderExitCode code) }

/-- The spawn-error translation: ENOENT and EACCES get dedicated messages
naming the shell executable; anything else keeps the raw message. -/
def spawnErrMessage (shellCmd : String) (code : Option String) (msg : String) : String :=
  if code = some ("ENOENT") then "Command not found: " ++ shellCmd
  else if code = some ("EACCES") then "Permission denied: " ++ shellCmd
  else msg

/-- One event handler step of the executeShellCommand promise, returning
the new state and the resolution this event produced, if any.  The timeout
callback runs only when the timer has not been cleared and checks the
latch; close and error first clear the timer, then check the latch. -/
def shellStep (C : Constants) (timeout : ℚ) (shellCmd : String)
    (st : ShellState) : ProcEvent → ShellState × Option CommandResult
  | ProcEvent.out chunk =>
    let size := st.outputSize + chunk.length
    ({ st with
        outputSize := size
        stdout := if size ≤ C.MAX_OUTPUT_SIZE then st.stdout ++ chunk else st.stdout },
      none)
  | ProcEvent.errOut chunk =>
    let size := st.outputSize + chunk.length
    ({ st with
        outputSize := size
        stderr := if size ≤ C.MAX_OUTPUT_SIZE then st.stderr ++ chunk else st.stderr },
      none)
  | ProcEvent.timeoutFire =>
    if st.timerCleared then (st, none)
    else if st.resolved then (st, none)
    else ({ st with resolved := true, killedProc := true },
      some { success := false
             error := some ("Command timed out after " ++ toString timeout ++ "ms") })
  | ProcEvent.closed code =>
    if st.resolved then ({ st with timerCleared := true }, none)
    else ({ st with timerCleared := true, resolved := true },
      some (closeResult C st code))
  | ProcEvent.spawnErr code msg =>
    if st.resolved then ({ st with timerCleared := true }, none)
    else ({ st with timerCleared := true, resolved := true },
      some { success := false, error := some (spawnErrMessage shellCmd code msg) })

/-- Run the promise over a sequence of delivered events, collecting every
resolution that occurs (the single-resolution claim is that this list
never has more than one element). -/
def runShell (C : Constants) (timeout : ℚ) (shellCmd : String) :
    ShellState → List ProcEvent → ShellState × List CommandResult
  | st, [] => (st, [])
  | st, e :: es =>
    let step := shellStep C timeout shellCmd st e
    let rest := runShell C timeout shellCmd step.fst es
    (rest.fst, step.snd.toList ++ rest.snd)

/- ------------------------------------------------------------------ -/
/- The World: OS oracles consumed by the handlers                      -/
/- ------------------------------------------------------------------ -/

/-- One entry as returned by readdir with file types. -/
structure DirEntry where
  name : String
  isDirectory : Bool
deriving DecidableEq

/-- The host environment of one command execution: the filesystem, the
home directory, the platform flag, the outcome of each OS call (Except
carries the message of the exception the call would throw), and the event
sequence every spawned process delivers. -/
structure World where
  fs : FS
  home : String
  win32 : Bool
  stat : String → Except String Nat
  readFile : String → Except String String
  writeFile : String → String → Except String Unit
  mkdir : String → Except String Unit
  readdir : String → Except String (List DirEntry)
  lstat : String → Except String (Nat × String)
  killOutcome : ℚ → String → Except String Unit
  shellEvents : SpawnSpec → List ProcEvent

/-- The platform shell executable named in spawn-error messages. -/
def shellCmdOf (w : World) : String := if w.win32 then "cmd.exe" else "/bin/sh"

/-- Full executeShellCommand: prechecks, then the promise over the events
the spawned process delivers.  none models a promise that never settles
(a process that never exits); the function itself cannot throw. -/
def executeShellCommand (C : Constants) (w : World) (p : Payload) :
    Option CommandResult :=
  match executeShellCommandPre C w.fs w.home p with
  | Sum.inl r => some r
  | Sum.inr spec =>
    (runShell C spec.timeout (shellCmdOf w) initShellState (w.shellEvents spec)).snd.head?

/- ------------------------------------------------------------------ -/
/- The six handlers and the executor seam                              -/
/- ------------------------------------------------------------------ -/

/-- fileRead: path guard, size cap via stat, then read.  Except models the
exceptions stat and readFile may throw. -/
def fileRead (C : Constants) (w : World) (p : Payload) :
    Except String CommandResult := do
  match resolveAndValidatePath w.fs w.home p.path none with
  | Sum.inr r => return r
  | Sum.inl filePath =>
    let size ← w.stat filePath
    if size > C.MAX_FILE_READ_SIZE then
      return { success := false
               error := some ("File too large: " ++ toString size ++ " bytes (limit: "
                 ++ toString C.MAX_FILE_READ_SIZE ++ " bytes)") }
    else
      let content ← w.readFile filePath
      return { success := true, data := ResultData.str content }

/-- fileWrite: path guard, string content required (empty string allowed),
content size cap, optional mkdir of the parent, then write. -/
def fileWrite (C : Constants) (w : World) (p : Payload) :
    Except String CommandResult := do
  match resolveAndValidatePath w.fs w.home p.path none with
  | Sum.inr r => return r
  | Sum.inl filePath =>
    match p.content with
    | JSValue.str content =>
      if content.length > C.MAX_FILE_WRITE_SIZE then
        return { success := false
                 error := some ("Content too large: " ++ toString content.length
                   ++ " bytes (limit: " ++ toString C.MAX_FILE_WRITE_SIZE ++ " bytes)") }
      else do
        if truthy p.createDirectories then
          let _ ← w.mkdir (w.fs.dirname filePath)
        let _ ← w.writeFile filePath content
        return { success := true, data := ResultData.str ("Written to " ++ filePath) }
    | _ => return { success := false, error := some ("No content specified") }

/-- fileList: path guard with default directory dot, entry cap with a
truncation flag, per-entry best-effort lstat that degrades to size zero
and an empty mtime. -/
def fileList (C : Constants) (w : World) (p : Payload) :
    Except String CommandResult := do
  match resolveAndValidatePath w.fs w.home p.path (some (".")) with
  | Sum.inr r => return r
  | Sum.inl dirPath =>
    let allEntries ← w.readdir dirPath
    let truncated := allEntries.length > C.MAX_DIR_ENTRIES
    let entries := allEntries.take C.MAX_DIR_ENTRIES
    let items := entries.map (fun entry =>
      let fullPath := pathJoin dirPath entry.name
      let ty := if entry.isDirectory then "directory" else "file"
      match w.lstat fullPath with
      | Except.ok sm => { name := entry.name, type := ty, size := sm.fst, modified := sm.snd }
      | Except.error _ => { name := entry.name, type := ty, size := 0, modified := "" })
    return { success := true
             data := ResultData.listing items truncated allEntries.length }

/-- processList: delegate to the shell path with the platform process
listing command and the dedicated shorter timeout. -/
def processList (C : Constants) (w : World) : Option CommandResult :=
  let command := if w.win32 then "tasklist /fo csv /nh" else "ps aux"
  executeShellCommand C w
    { command := JSValue.str command, timeout := JSValue.num C.PROCESS_LIST_TIMEOUT }

/-- The allow-listed kill signals; SIGKILL is deliberately absent. -/
def ALLOWED_SIGNALS : List String :=
  ["SIGTERM", "SIGUSR1", "SIGUSR2", "SIGINT", "SIGHUP"]

/-- processKill: PID must parse to a truthy positive integer, the signal
(default SIGTERM) must be allow-listed, then process.kill is invoked under
its own try/catch.  The second component records every kill invocation. -/
def processKill (w : World) (p : Payload) : CommandResult × List (ℚ × String) :=
  match parseNumber p.pid with
  | none => ({ success := false, error := some ("Invalid PID: must be a positive integer") }, [])
  | some pid =>
    if pid = 0 ∨ pid < 1 ∨ pid.den ≠ 1 then
      ({ success := false, error := some ("Invalid PID: must be a positive integer") }, [])
    else
      let signal := (parseString p.signal).getD ("SIGTERM")
      if signal ∈ ALLOWED_SIGNALS then
        match w.killOutcome pid signal with
        | Except.ok _ =>
          ({ success := true
             data := ResultData.str ("Sent " ++ signal ++ " to PID " ++ toString pid) },
           [(pid, signal)])
        | Except.error e =>
          ({ success := false, error := some (getErrorMessage e) }, [(pid, signal)])
      else
        ({ success := false
           error := some ("Signal not allowed: " ++ signal ++ ". Allowed: "
             ++ String.intercalate (", ") ALLOWED_SIGNALS) }, [])

/-- executeCommand: dispatch on the type tag inside a try/catch that maps
any thrown fault to a failure result; unknown tags get an explicit error.
none models only a shell promise that never settles. -/
def executeCommand (C : Constants) (w : World) (type : String) (payload : Payload) :
    Option CommandResult :=
  let body : Except String (Option CommandResult) :=
    if type = "execute_command" then Except.ok (executeShellCommand C w payload)
    else if type = "file_read" then (fileRead C w payload).map some
    else if type = "file_write" then (fileWrite C w payload).map some
    else if type = "file_list" then (fileList C w payload).map some
    else if type = "process_list" then Except.ok (processList C w)
    else if type = "process_kill" then Except.ok (some (processKill w payload).fst)
    else Except.ok (some { success := false
                           error := some ("Unknown command type: " ++ type) })
  match body with
  | Except.ok r => r
  | Except.error e => some { success := false, error := some (getErrorMessage e) }

/- ------------------------------------------------------------------ -/
/- AgentRunner: poll loop, single-flight flag, stop handle             -/
/- ------------------------------------------------------------------ -/

/-- One entry of the pending-command summary list. -/
structure PendingCmd where
  commandId : String
  type : String
deriving DecidableEq

/-- Full command detail fetched per command. -/
structure CommandDetail where
  type : String
  payload : Payload

/-- The ApiClient collaborator as seen by one poll cycle: the outcome of
each network call, Except carrying the message of the error the call
would throw. -/
structure PollClient where
  getPendingCommands : Except String (List PendingCmd)
  getCommand : String → Except String CommandDetail
  submitResult : String → CommandResult → Except String Unit

/-- Observable actions of a poll cycle: the pending fetch, a per-command
detail fetch, a command execution, a result submission attempt. -/
inductive PollCall where
  | fetchPending
  | fetchDetail (commandId : String)
  | runCmd (commandId : String)
  | submit (commandId : String) (result : CommandResult)
deriving DecidableEq

/-- The per-command try/catch body of the poll loop: fetch detail, execute,
submit; a throw at any step is caught and a failure result is submitted
best-effort (a throw from that second submission is swallowed).  none
models only a command whose shell promise never settles. -/
def processOneCommand (C : Constants) (w : World) (client : PollClient)
    (cmd : PendingCmd) : Option (List PollCall) :=
  match client.getCommand cmd.commandId with
  | Except.error m =>
    some [PollCall.fetchDetail cmd.commandId,
      PollCall.submit cmd.commandId { success := false, error := some m }]
  | Except.ok detail =>
    match executeCommand C w detail.type detail.payload with
    | none => none
    | some result =>
      match client.submitResult cmd.commandId result with
      | Except.ok _ =>
        some [PollCall.fetchDetail cmd.commandId, PollCall.runCmd cmd.commandId,
          PollCall.submit cmd.commandId result]
      | Except.error m =>
        some [PollCall.fetchDetail cmd.commandId, PollCall.runCmd cmd.commandId,
          PollCall.submit cmd.commandId result,
          PollCall.submit cmd.commandId { success := false, error := some m }]

/-- Sequential processing of every fetched command in server order. -/
def processAll (C : Constants) (w : World) (client : PollClient) :
    List PendingCmd → Option (List PollCall)
  | [] => some []
  | c :: cs => do
    let headCalls ← processOneCommand C w client c
    let tailCalls ← processAll C w client cs
    return headCalls ++ tailCalls

/-- One poll-timer tick.  If the single-flight flag is set the tick returns
immediately: no calls at all, flag untouched (it belongs to the in-flight
cycle).  Otherwise the flag is set for the whole cycle; the try/catch
around the pending fetch swallows transport errors, and the finally clause
clears the flag on every completed path.  A none trace models a cycle
suspended forever on a never-settling execution, in which case the flag is
never cleared. -/
def pollCommands (C : Constants) (w : World) (client : PollClient)
    (processing : Bool) : Option (List PollCall) × Bool :=
  if processing then (some [], true)
  else
    match client.getPendingCommands with
    | Except.error _ => (some [PollCall.fetchPending], false)
    | Except.ok pending =>
      match processAll C w client pending with
      | none => (none, true)
      | some calls => (some (PollCall.fetchPending :: calls), false)

/-- The per-agent handle state: the two timer handles (null until
registration completes) and the set of interval ids already cleared.
clearInterval on a cleared id is a no-op, as in Node. -/
structure AgentHandle where
  heartbeatTimer : Option Nat := none
  pollTimer : Option Nat := none
  cleared : List Nat := []
deriving DecidableEq

/-- Record one interval id as cleared (idempotently, as clearInterval on an
already-cleared id is a no-op). -/
def clearId (id : Nat) (cl : List Nat) : List Nat :=
  if id ∈ cl then cl else id :: cl

/-- Node clearInterval on an optional timer handle. -/
def clearIntervalOn (s : AgentHandle) (t : Option Nat) : AgentHandle :=
  match t with
  | none => s
  | some id => { s with cleared := clearId id s.cleared }

/-- The stop closure returned by startProjectAgent: clear the heartbeat
timer if set, then the poll timer if set. -/
def stopAgent (s : AgentHandle) : AgentHandle :=
  clearIntervalOn (clearIntervalOn s s.heartbeatTimer) s.pollTimer

/-- A scheduled interval callback starts new work iff its id has not been
cleared. -/
def timerFires (s : AgentHandle) (id : Nat) : Bool := !(decide (id ∈ s.cleared))

/-- Completion of registerAndStart: both interval timers are created. -/
def registerOk (s : AgentHandle) (hb pt : Nat) : AgentHandle :=
  { s with heartbeatTimer := some hb, pollTimer := some pt }

/- ------------------------------------------------------------------ -/
/- Auxiliary predicates used by the claims                             -/
/- ------------------------------------------------------------------ -/

/-- An event that can settle the shell promise. -/
def isCompletion : ProcEvent → Bool
  | ProcEvent.timeoutFire => true
  | ProcEvent.closed _ => true
  | ProcEvent.spawnErr _ _ => true
  | _ => false

/-- Every spawned process eventually delivers a completion event (the
shell promise settles). -/
def settles (w : World) : Prop :=
  ∀ spec : SpawnSpec, ∃ e ∈ w.shellEvents spec, isCompletion e = true

/-- A stream-data event (stdout or stderr chunk). -/
def isDataEvent : ProcEvent → Bool
  | ProcEvent.out _ => true
  | ProcEvent.errOut _ => true
  | _ => false

/-- An event stream consisting only of stream-data events. -/
def dataEventsOnly (es : List ProcEvent) : Prop := ∀ e ∈ es, isDataEvent e = true

/-- Total byte count carried by the data events of a stream. -/
def totalLen : List ProcEvent → Nat
  | [] => 0
  | ProcEvent.out c :: es => c.length + totalLen es
  | ProcEvent.errOut c :: es => c.length + totalLen es
  | _ :: es => totalLen es

/-- Substring search helper over character lists. -/
def containsAux (sub : List Char) : List Char → Bool
  | [] => sub.isEmpty
  | c :: cs => sub.isPrefixOf (c :: cs) || containsAux sub cs

/-- Decidable string containment (the claims speak of an error message
containing a phrase). -/
def strContains (s sub : String) : Bool := containsAux sub.data s.data

/- ------------------------------------------------------------------ -/
/- Concrete sample instances used to witness the theorems              -/
/- ------------------------------------------------------------------ -/

/-- A tiny concrete filesystem: /etc/shadow exists (canonicalising to
itself), /home/u is a symlink whose target canonicalises into /etc/, and
everything else fails to canonicalise with a root parent. -/
def sampleFS : FS :=
  { realpath := fun p =>
      if p == "/etc/shadow" then some ("/etc/shadow")
      else if p == "/home/u/link" then some ("/etc/passwd")
      else none
    resolve := id
    dirname := fun _ => "/"
    basename := id }

/-- Concrete constant values for witnesses (the spec leaves the real
values abstract). -/
def sampleConstants : Constants :=
  { CMD_DEFAULT_TIMEOUT := 30000
    MAX_CMD_TIMEOUT := 300000
    MAX_OUTPUT_SIZE := 1048576
    MAX_FILE_READ_SIZE := 1048576
    MAX_FILE_WRITE_SIZE := 1048576
    MAX_DIR_ENTRIES := 500
    PROCESS_LIST_TIMEOUT := 10000 }

/-- A concrete world: every OS call fails with ENOENT except writes and
kills, and every spawned process prints hello and exits 0. -/
def sampleWorld : World :=
  { fs := sampleFS
    home := "/home/u"
    win32 := false
    stat := fun _ => Except.error ("ENOENT")
    readFile := fun _ => Except.error ("ENOENT")
    writeFile := fun _ _ => Except.ok ()
    mkdir := fun _ => Except.ok ()
    readdir := fun _ => Except.error ("ENOENT")
    lstat := fun _ => Except.error ("ENOENT")
    killOutcome := fun _ _ => Except.ok ()
    shellEvents := fun _ => [ProcEvent.out ("hello\n"), ProcEvent.closed (some 0)] }

/-- A concrete client with one pending file_read command whose detail
fetch throws. -/
def sampleClient : PollClient :=
  { getPendingCommands := Except.ok [{ commandId := "c1", type := "file_read" }]
    getCommand := fun _ => Except.error ("network down")
    submitResult := fun _ _ => Except.ok () }

/-- A concrete client whose pending fetch itself throws. -/
def sampleErrClient : PollClient :=
  { getPendingCommands := Except.error ("net")
    getCommand := fun _ => Except.error ("net")
    submitResult := fun _ _ => Except.ok () }

/-- Constants with a tiny output cap, for exercising truncation. -/
def tinyConstants : Constants :=
  { CMD_DEFAULT_TIMEOUT := 1000
    MAX_CMD_TIMEOUT := 2000
    MAX_OUTPUT_SIZE := 4
    MAX_FILE_READ_SIZE := 8
    MAX_FILE_WRITE_SIZE := 8
    MAX_DIR_ENTRIES := 2
    PROCESS_LIST_TIMEOUT := 500 }

/-- The shape of a PathGuard rejection as observed through the executor:
some blocked root b is named inside an Access denied failure. -/
def accessDeniedResult (r : Option CommandResult) : Prop :=
  ∃ b, r = some { success := false
                  error := some ("Access denied: " ++ b ++ " paths are blocked") }

end AgentCli

/- ------------------------------------------------------------------ -/
/- Helper lemmas                                                       -/
/- ------------------------------------------------------------------ -/

namespace AgentCli

/-- The scan of find? over the blocked roots succeeds exactly when some
root matches the canonical path. -/
theorem blockedMatch_hit {home resolved pfx : String}
    (hmem : pfx ∈ BLOCKED_PATH_PREFIXES ++ getSensitiveHomePaths home)
    (hhit : resolved = dropTrailingSlash pfx ∨ strStartsWith resolved pfx = true) :
    ∃ b, blockedMatch home resolved = some b := by
  have hpred : (resolved == dropTrailingSlash pfx || strStartsWith resolved pfx) = true := by
    rcases hhit with h | h
    · simp [h]
    · simp [h]
  have hsome : ((BLOCKED_PATH_PREFIXES ++ getSensitiveHomePaths home).find?
      (fun q => resolved == dropTrailingSlash q || strStartsWith resolved q)).isSome := by
    exact List.find?_isSome.mpr ⟨pfx, hmem, hpred⟩
  rcases Option.isSome_iff_exists.mp hsome with ⟨b, hb⟩
  exact ⟨b, hb⟩

/-- validateFilePath on a blocked canonical path is an Access denied
message naming the first matching root. -/
theorem validateFilePath_blocked {fs : FS} {home fp pfx : String}
    (hmem : pfx ∈ BLOCKED_PATH_PREFIXES ++ getSensitiveHomePaths home)
    (hhit : resolvedPath fs fp = dropTrailingSlash pfx ∨
      strStartsWith (resolvedPath fs fp) pfx = true) :
    ∃ b, validateFilePath fs home fp
      = some ("Access denied: " ++ b ++ " paths are blocked") := by
  rcases blockedMatch_hit hmem hhit with ⟨b, hb⟩
  exact ⟨b, by simp [validateFilePath, hb]⟩

/-- With the payload path parsed and the path guard reporting an error,
each of the three file operations returns that failure unchanged. -/
theorem fileOps_return_guard_error (C : Constants) (w : World) (p : Payload)
    {fp msg : String}
    (hpath : parseString p.path = some fp)
    (hv : validateFilePath w.fs w.home fp = some msg) :
    executeCommand C w ("file_read") p = some { success := false, error := some msg }
    ∧ executeCommand C w ("file_write") p = some { success := false, error := some msg }
    ∧ executeCommand C w ("file_list") p = some { success := false, error := some msg } := by
  have hres : ∀ d, resolveAndValidatePath w.fs w.home p.path d
      = Sum.inr { success := false, error := some msg } := by
    intro d
    simp [resolveAndValidatePath, hpath, Option.orElse, hv]
  refine ⟨?_, ?_, ?_⟩ <;>
    simp [executeCommand, fileRead, fileWrite, fileList, hres, Except.map, pure, Except.pure]

/-- A prefix of a list is a prefix of any extension of it. -/
theorem isPrefixOf_append_left {sub l : List Char} (t : List Char)
    (h : sub.isPrefixOf l = true) : sub.isPrefixOf (l ++ t) = true := by
  rw [List.isPrefixOf_iff_prefix] at h ⊢
  exact h.trans (List.prefix_append l t)

/-- A string whose character data starts with the data of sub contains
sub. -/
theorem strContains_of_prefixData {s sub : String}
    (h : sub.data.isPrefixOf s.data = true) : strContains s sub = true := by
  unfold strContains
  cases hd : s.data with
  | nil =>
    rw [hd] at h
    cases hsub : sub.data with
    | nil => simp [containsAux, hsub]
    | cons c cs => rw [hsub] at h; simp [List.isPrefixOf] at h
  | cons c cs =>
    rw [hd] at h
    simp [containsAux, h]

end AgentCli

/- ------------------------------------------------------------------ -/
/- Claim theorems                                                      -/
/- ------------------------------------------------------------------ -/

namespace AgentCli

/-- C1: for every payload path whose canonical (symlink-resolved) form is
equal to a blocked root (trailing slash stripped) or nested under one —
the fixed system roots together with the per-invocation sensitive home
subdirectories — the operations file_read, file_write and file_list all
return success false with an error naming the blocked root and containing
"Access denied"; the hypothesis is on the canonical form, so a symlink
whose target resolves into a blocked root is covered, and for a path that
does not canonicalise the checked form is the canonicalised parent joined
with the base name. -/
theorem C1_blocked_path_rejection (C : Constants) (w : World) (p : Payload)
    (fp pfx : String)
    (hpath : parseString p.path = some fp)
    (hmem : pfx ∈ BLOCKED_PATH_PREFIXES ++ getSensitiveHomePaths w.home)
    (hhit : resolvedPath w.fs fp = dropTrailingSlash pfx ∨
      strStartsWith (resolvedPath w.fs fp) pfx = true) :
    accessDeniedResult (executeCommand C w ("file_read") p)
    ∧ accessDeniedResult (executeCommand C w ("file_write") p)
    ∧ accessDeniedResult (executeCommand C w ("file_list") p)
    ∧ (∀ b, strContains ("Access denied: " ++ b ++ " paths are blocked")
        ("Access denied") = true)
    ∧ (∀ realParent, w.fs.realpath fp = none →
        w.fs.realpath (w.fs.dirname (w.fs.resolve fp)) = some realParent →
        resolvedPath w.fs fp = pathJoin realParent (w.fs.basename fp)) := by
  rcases validateFilePath_blocked hmem hhit with ⟨b, hv⟩
  rcases fileOps_return_guard_error C w p hpath hv with ⟨h1, h2, h3⟩
  refine ⟨⟨b, h1⟩, ⟨b, h2⟩, ⟨b, h3⟩, ?_, ?_⟩
  · intro b0
    apply strContains_of_prefixData
    rw [List.isPrefixOf_iff_prefix]
    have hdata : ("Access denied: " ++ b0 ++ " paths are blocked").data
        = ("Access denied: ".data ++ b0.data) ++ " paths are blocked".data := by
      simp [String.data_append]
    rw [hdata]
    have h0 : "Access denied".data <+: "Access denied: ".data := by decide
    exact h0.trans ((List.prefix_append _ _).trans (List.prefix_append _ _))
  · intro realParent h1 h2
    simp [resolvedPath, h1, h2]

/-- Witness for C1 at a concrete input: reading through the symlink
/home/u/link, whose target canonicalises to /etc/passwd, is rejected. -/
theorem C1_witness :
    accessDeniedResult (executeCommand sampleConstants sampleWorld ("file_read")
      { path := JSValue.str ("/home/u/link") }) :=
  (C1_blocked_path_rejection sampleConstants sampleWorld
    { path := JSValue.str ("/home/u/link") } ("/home/u/link") ("/etc/")
    (by decide) (by decide) (Or.inr (by decide))).1

end AgentCli

namespace AgentCli

/-- C2: whenever the command string matches one of the blocked destructive
patterns, execute_command fails before the spawn stage (the precheck
returns an early result, so no SpawnSpec ever reaches the process oracle)
with an error naming the matched pattern; and a command matching none of
the patterns passes the validator. -/
theorem C2_blocked_command_rejection (C : Constants) (w : World) (p : Payload)
    (cmdStr : String)
    (hc : parseString p.command = some cmdStr) :
    ((∃ pat ∈ BLOCKED_COMMAND_PATTERNS, regexTest pat.fst cmdStr = true) →
      ∃ pat0, pat0 ∈ BLOCKED_COMMAND_PATTERNS
        ∧ executeShellCommandPre C w.fs w.home p
            = Sum.inl { success := false
                        error := some ("Blocked dangerous command pattern: " ++ pat0.snd) }
        ∧ executeCommand C w ("execute_command") p
            = some { success := false
                     error := some ("Blocked dangerous command pattern: " ++ pat0.snd) })
    ∧ ((∀ pat ∈ BLOCKED_COMMAND_PATTERNS, regexTest pat.fst cmdStr = false) →
      validateCommand cmdStr = none) := by
  constructor
  · rintro ⟨pat, hmem, htest⟩
    have hsome : (BLOCKED_COMMAND_PATTERNS.find?
        (fun q => regexTest q.fst cmdStr)).isSome :=
      List.find?_isSome.mpr ⟨pat, hmem, htest⟩
    rcases Option.isSome_iff_exists.mp hsome with ⟨pat0, hfind⟩
    have hmem0 : pat0 ∈ BLOCKED_COMMAND_PATTERNS := List.mem_of_find?_eq_some hfind
    have hvc : validateCommand cmdStr
        = some ("Blocked dangerous command pattern: " ++ pat0.snd) := by
      simp [validateCommand, hfind]
    have hpre : executeShellCommandPre C w.fs w.home p
        = Sum.inl { success := false
                    error := some ("Blocked dangerous command pattern: " ++ pat0.snd) } := by
      simp [executeShellCommandPre, hc, hvc]
    refine ⟨pat0, hmem0, hpre, ?_⟩
    simp [executeCommand, executeShellCommand, hpre]
  · intro hnone
    have hfn : BLOCKED_COMMAND_PATTERNS.find? (fun q => regexTest q.fst cmdStr) = none :=
      List.find?_eq_none.mpr (fun x hx hpx => by simp [hnone x hx] at hpx)
    simp [validateCommand, hfn]

/-- Witness for C2 at the concrete command rm -rf / (slash unadorned),
which matches the recursive-root-deletion pattern. -/
theorem C2_witness :
    ∃ pat0, pat0 ∈ BLOCKED_COMMAND_PATTERNS
      ∧ executeShellCommandPre sampleConstants sampleWorld.fs sampleWorld.home
          { command := JSValue.str ("rm -rf /") }
          = Sum.inl { success := false
                      error := some ("Blocked dangerous command pattern: " ++ pat0.snd) }
      ∧ executeCommand sampleConstants sampleWorld ("execute_command")
          { command := JSValue.str ("rm -rf /") }
          = some { success := false
                   error := some ("Blocked dangerous command pattern: " ++ pat0.snd) } :=
  (C2_blocked_command_rejection sampleConstants sampleWorld
      { command := JSValue.str ("rm -rf /") } ("rm -rf /") (by decide)).1
    ⟨(rmPatternHere, "/\\brm\\s+-rf\\s+\\/(?!\\w)/"),
      by unfold BLOCKED_COMMAND_PATTERNS; exact List.mem_cons_self _ _,
      by decide⟩

end AgentCli

namespace AgentCli

/-- The promise invariant: the timer is only ever cleared by a path that
has resolved (close or spawn error), so a cleared timer implies the latch
is set. -/
def shellInv (st : ShellState) : Prop := st.timerCleared = true → st.resolved = true

/-- After one event the latch is set iff it was set before or this event
produced a resolution. -/
theorem shellStep_resolved_eq (C : Constants) (t : ℚ) (sc : String)
    (st : ShellState) (e : ProcEvent) :
    (shellStep C t sc st e).fst.resolved
      = (st.resolved || ((shellStep C t sc st e).snd).isSome) := by
  cases e <;> simp only [shellStep] <;>
    first
    | (split_ifs <;> simp_all)
    | simp_all

/-- Once the latch is set no event produces a further resolution. -/
theorem shellStep_snd_none_of_resolved (C : Constants) (t : ℚ) (sc : String)
    {st : ShellState} (e : ProcEvent) (h : st.resolved = true) :
    (shellStep C t sc st e).snd = none := by
  cases e with
  | out c => rfl
  | errOut c => rfl
  | timeoutFire => simp [shellStep, h]
  | closed code => simp [shellStep, h]
  | spawnErr code m => simp [shellStep, h]

/-- Every event handler preserves the promise invariant. -/
theorem shellStep_inv (C : Constants) (t : ℚ) (sc : String)
    {st : ShellState} (e : ProcEvent) (h : shellInv st) :
    shellInv (shellStep C t sc st e).fst := by
  cases e <;> simp only [shellStep, shellInv] <;>
    first
    | (split_ifs <;> simp_all [shellInv])
    | simp_all [shellInv]

/-- Under the invariant, a completion event always leaves the latch set. -/
theorem shellStep_completion_resolved (C : Constants) (t : ℚ) (sc : String)
    {st : ShellState} {e : ProcEvent} (h : shellInv st)
    (hc : isCompletion e = true) :
    (shellStep C t sc st e).fst.resolved = true := by
  cases e <;> simp only [isCompletion] at hc <;>
    first
    | (simp only [shellStep] ; split_ifs <;> simp_all [shellInv])
    | simp_all

/-- The latch is monotone along any event sequence. -/
theorem runShell_resolved_mono (C : Constants) (t : ℚ) (sc : String) :
    ∀ (es : List ProcEvent) (st : ShellState), st.resolved = true →
      (runShell C t sc st es).fst.resolved = true := by
  intro es
  induction es with
  | nil => intro st h; simpa [runShell] using h
  | cons e es ih =>
    intro st h
    simp only [runShell]
    exact ih _ (by rw [shellStep_resolved_eq, h]; rfl)

/-- The invariant is preserved along any event sequence. -/
theorem runShell_inv (C : Constants) (t : ℚ) (sc : String) :
    ∀ (es : List ProcEvent) (st : ShellState), shellInv st →
      shellInv (runShell C t sc st es).fst := by
  intro es
  induction es with
  | nil => intro st h; simpa [runShell] using h
  | cons e es ih => intro st h; exact ih _ (shellStep_inv C t sc e h)

/-- A run starting with the latch already set produces no resolution. -/
theorem runShell_count_resolved (C : Constants) (t : ℚ) (sc : String) :
    ∀ (es : List ProcEvent) (st : ShellState), st.resolved = true →
      ((runShell C t sc st es).snd).length = 0 := by
  intro es
  induction es with
  | nil => intro st _; simp [runShell]
  | cons e es ih =>
    intro st h
    simp only [runShell, List.length_append, Option.toList]
    rw [shellStep_snd_none_of_resolved C t sc e h]
    have h1 : (shellStep C t sc st e).fst.resolved = true := by
      rw [shellStep_resolved_eq, h]; rfl
    simp [ih _ h1]

/-- A run starting with the latch unset produces exactly one resolution
when it ends with the latch set, and none otherwise. -/
theorem runShell_count_unresolved (C : Constants) (t : ℚ) (sc : String) :
    ∀ (es : List ProcEvent) (st : ShellState), st.resolved = false →
      ((runShell C t sc st es).snd).length
        = (if (runShell C t sc st es).fst.resolved = true then 1 else 0) := by
  intro es
  induction es with
  | nil =>
    intro st h
    simp [runShell, h]
  | cons e es ih =>
    intro st h
    simp only [runShell, List.length_append, Option.toList]
    cases ho : (shellStep C t sc st e).snd with
    | some r =>
      have h1 : (shellStep C t sc st e).fst.resolved = true := by
        rw [shellStep_resolved_eq, h, ho]; rfl
      have h2 := runShell_resolved_mono C t sc es _ h1
      simp [runShell_count_resolved C t sc es _ h1, h2]
    | none =>
      have h1 : (shellStep C t sc st e).fst.resolved = false := by
        rw [shellStep_resolved_eq, h, ho]; rfl
      simp [ih _ h1]

/-- Under the invariant, a sequence containing a completion event leaves
the latch set at the end. -/
theorem runShell_resolved_of_completion (C : Constants) (t : ℚ) (sc : String) :
    ∀ (es : List ProcEvent) (st : ShellState), shellInv st →
      (∃ e ∈ es, isCompletion e = true) →
      (runShell C t sc st es).fst.resolved = true := by
  intro es
  induction es with
  | nil => rintro st _ ⟨e, he, -⟩; exact absurd he (List.not_mem_nil e)
  | cons e es ih =>
    rintro st hinv ⟨e0, he0, hc0⟩
    rcases List.mem_cons.mp he0 with rfl | hmem
    · exact runShell_resolved_mono C t sc es _
        (shellStep_completion_resolved C t sc hinv hc0)
    · exact ih _ (shellStep_inv C t sc e hinv) ⟨e0, hmem, hc0⟩

end AgentCli

namespace AgentCli

/-- The initial promise state satisfies the timer/latch invariant. -/
theorem shellInv_init : shellInv initShellState := by
  intro h
  simp [initShellState] at h

/-- C7: over any sequence of delivered events the shell promise resolves
at most once, and exactly once as soon as some completion source (timeout,
close, spawn error) fires; the timeout path force-kills the process and
resolves the timeout error only when the latch is still unset, the close
path resolves success on exit code 0 and otherwise a failure carrying the
captured stdout as data and stderr (or the generic exit message) as error,
and the spawn-error path resolves the translated ENOENT / EACCES
messages. -/
theorem C7_single_resolution (C : Constants) (t : ℚ) (sc : String)
    (es : List ProcEvent) :
    ((runShell C t sc initShellState es).snd).length ≤ 1
    ∧ ((∃ e ∈ es, isCompletion e = true) →
        ((runShell C t sc initShellState es).snd).length = 1)
    ∧ (∀ st : ShellState, st.resolved = false → st.timerCleared = false →
        shellStep C t sc st ProcEvent.timeoutFire
          = ({ st with resolved := true, killedProc := true },
             some { success := false
                    error := some ("Command timed out after " ++ toString t ++ "ms") }))
    ∧ (∀ (st : ShellState) (code : Option Int), st.resolved = false →
        shellStep C t sc st (ProcEvent.closed code)
          = ({ st with timerCleared := true, resolved := true },
             some (closeResult C st code)))
    ∧ (∀ st : ShellState, (closeResult C st (some 0)).success = true)
    ∧ (∀ (st : ShellState) (code : Option Int), code ≠ some 0 →
        (closeResult C st code).success = false
        ∧ (closeResult C st code).data = ResultData.str (st.stdout ++
            (if st.outputSize > C.MAX_OUTPUT_SIZE then truncationMarker else ""))
        ∧ (st.stderr = "" → (closeResult C st code).error
            = some ("Process exited with code " ++ renderExitCode code))
        ∧ (st.stderr ≠ "" → (closeResult C st code).error = some st.stderr))
    ∧ (∀ (st : ShellState) (m : String), st.resolved = false →
        (shellStep C t sc st (ProcEvent.spawnErr (some ("ENOENT")) m)).snd
          = some { success := false, error := some ("Command not found: " ++ sc) }
        ∧ (shellStep C t sc st (ProcEvent.spawnErr (some ("EACCES")) m)).snd
          = some { success := false, error := some ("Permission denied: " ++ sc) }) := by
  refine ⟨?_, ?_, ?_, ?_, ?_, ?_, ?_⟩
  · rw [runShell_count_unresolved C t sc es initShellState rfl]
    split_ifs <;> simp
  · intro hex
    rw [runShell_count_unresolved C t sc es initShellState rfl,
      if_pos (runShell_resolved_of_completion C t sc es initShellState shellInv_init hex)]
  · intro st h1 h2
    simp [shellStep, h1, h2]
  · intro st code h
    simp [shellStep, h]
  · intro st
    simp [closeResult]
  · intro st code h
    refine ⟨by simp [closeResult, h], by simp [closeResult, h], ?_, ?_⟩
    · intro hs
      simp [closeResult, h, hs]
    · intro hs
      simp [closeResult, h, hs]
  · intro st m h
    constructor <;> simp [shellStep, h, spawnErrMessage]

/-- Witness for C7: a concrete event race (data, then timeout, then a late
close) resolves exactly once. -/
theorem C7_witness :
    ((runShell sampleConstants 30000 ("/bin/sh") initShellState
        [ProcEvent.out ("x"), ProcEvent.timeoutFire,
          ProcEvent.closed (some 0)]).snd).length = 1 :=
  (C7_single_resolution sampleConstants 30000 ("/bin/sh")
      [ProcEvent.out ("x"), ProcEvent.timeoutFire, ProcEvent.closed (some 0)]).2.1
    ⟨ProcEvent.timeoutFire, by decide, rfl⟩

end AgentCli

namespace AgentCli

/-- Under a settling world the whole shell path always produces a result. -/
theorem executeShellCommand_isSome (C : Constants) (w : World)
    (hset : settles w) (p : Payload) :
    (executeShellCommand C w p).isSome = true := by
  unfold executeShellCommand
  cases hpre : executeShellCommandPre C w.fs w.home p with
  | inl r => simp
  | inr spec =>
    rcases hset spec with ⟨e, he, hc⟩
    have hres := runShell_resolved_of_completion C spec.timeout (shellCmdOf w)
      (w.shellEvents spec) initShellState shellInv_init ⟨e, he, hc⟩
    have hcount := runShell_count_unresolved C spec.timeout (shellCmdOf w)
      (w.shellEvents spec) initShellState rfl
    rw [if_pos hres] at hcount
    cases hl : (runShell C spec.timeout (shellCmdOf w) initShellState
        (w.shellEvents spec)).snd with
    | nil => rw [hl] at hcount; simp at hcount
    | cons a l => simp [hl]

/-- Under a settling world the executor always produces a result for every
command type and payload. -/
theorem executeCommand_isSome (C : Constants) (w : World) (hset : settles w)
    (ty : String) (p : Payload) :
    (executeCommand C w ty p).isSome = true := by
  unfold executeCommand
  split_ifs with h1 h2 h3 h4 h5 h6
  · simpa using executeShellCommand_isSome C w hset p
  · cases hfr : fileRead C w p <;> simp [Except.map]
  · cases hfr : fileWrite C w p <;> simp [Except.map]
  · cases hfr : fileList C w p <;> simp [Except.map]
  · simpa [processList] using executeShellCommand_isSome C w hset
      { command := JSValue.str (if w.win32 then "tasklist /fo csv /nh" else "ps aux")
        timeout := JSValue.num C.PROCESS_LIST_TIMEOUT }
  · simp
  · simp

/-- Under a settling world every per-command body completes and contains a
result submission for its command. -/
theorem processOneCommand_spec (C : Constants) (w : World) (hset : settles w)
    (client : PollClient) (cmd : PendingCmd) :
    ∃ tr, processOneCommand C w client cmd = some tr
      ∧ ∃ r, PollCall.submit cmd.commandId r ∈ tr := by
  cases hg : client.getCommand cmd.commandId with
  | error m =>
    exact ⟨[PollCall.fetchDetail cmd.commandId,
        PollCall.submit cmd.commandId { success := false, error := some m }],
      by simp [processOneCommand, hg],
      ⟨{ success := false, error := some m }, by simp⟩⟩
  | ok detail =>
    rcases Option.isSome_iff_exists.mp
      (executeCommand_isSome C w hset detail.type detail.payload) with ⟨r, hr⟩
    cases hsub : client.submitResult cmd.commandId r with
    | ok u =>
      exact ⟨[PollCall.fetchDetail cmd.commandId, PollCall.runCmd cmd.commandId,
          PollCall.submit cmd.commandId r],
        by simp [processOneCommand, hg, hr, hsub],
        ⟨r, by simp⟩⟩
    | error m =>
      exact ⟨[PollCall.fetchDetail cmd.commandId, PollCall.runCmd cmd.commandId,
          PollCall.submit cmd.commandId r,
          PollCall.submit cmd.commandId { success := false, error := some m }],
        by simp [processOneCommand, hg, hr, hsub],
        ⟨r, by simp⟩⟩

/-- Under a settling world the sequential fold over the fetched commands
completes and contains one submission per command. -/
theorem processAll_spec (C : Constants) (w : World) (hset : settles w)
    (client : PollClient) :
    ∀ pending : List PendingCmd,
      ∃ calls, processAll C w client pending = some calls
        ∧ ∀ cmd ∈ pending, ∃ r, PollCall.submit cmd.commandId r ∈ calls := by
  intro pending
  induction pending with
  | nil => exact ⟨[], rfl, by simp⟩
  | cons c cs ih =>
    rcases processOneCommand_spec C w hset client c with ⟨tr, htr, r, hr⟩
    rcases ih with ⟨calls, hcalls, hall⟩
    refine ⟨tr ++ calls, by simp [processAll, htr, hcalls], ?_⟩
    intro cmd hmem
    rcases List.mem_cons.mp hmem with rfl | hmem2
    · exact ⟨r, List.mem_append_left _ hr⟩
    · rcases hall cmd hmem2 with ⟨r2, hr2⟩
      exact ⟨r2, List.mem_append_right _ hr2⟩

/-- C3: the executor seam never lets a fault escape — an unknown command
type yields an explicit failure result, a thrown handler fault is caught
and converted to a failure result carrying its message, the executor is
total under a settling world, and in the poll loop every fetched command
yields a submitted result (with a per-command catch that submits a failure
and lets the remaining commands of the cycle execute). -/
theorem C3_no_fault_escapes (C : Constants) (w : World) (hset : settles w) :
    (∀ (ty : String) (p : Payload), ty ≠ "execute_command" → ty ≠ "file_read" →
      ty ≠ "file_write" → ty ≠ "file_list" → ty ≠ "process_list" →
      ty ≠ "process_kill" →
      executeCommand C w ty p
        = some { success := false, error := some ("Unknown command type: " ++ ty) })
    ∧ (∀ (p : Payload) (m : String), fileRead C w p = Except.error m →
        executeCommand C w ("file_read") p
          = some { success := false, error := some m })
    ∧ (∀ (p : Payload) (m : String), fileWrite C w p = Except.error m →
        executeCommand C w ("file_write") p
          = some { success := false, error := some m })
    ∧ (∀ (p : Payload) (m : String), fileList C w p = Except.error m →
        executeCommand C w ("file_list") p
          = some { success := false, error := some m })
    ∧ (∀ (ty : String) (p : Payload), (executeCommand C w ty p).isSome = true)
    ∧ (∀ (client : PollClient) (pending : List PendingCmd),
        client.getPendingCommands = Except.ok pending →
        ∃ calls, pollCommands C w client false
            = (some (PollCall.fetchPending :: calls), false)
          ∧ ∀ cmd ∈ pending, ∃ r, PollCall.submit cmd.commandId r ∈ calls)
    ∧ (∀ (client : PollClient) (cmd : PendingCmd) (m : String),
        client.getCommand cmd.commandId = Except.error m →
        processOneCommand C w client cmd
          = some [PollCall.fetchDetail cmd.commandId,
              PollCall.submit cmd.commandId { success := false, error := some m }]) := by
  refine ⟨?_, ?_, ?_, ?_, ?_, ?_, ?_⟩
  · intro ty p h1 h2 h3 h4 h5 h6
    simp [executeCommand, h1, h2, h3, h4, h5, h6]
  · intro p m hm
    simp [executeCommand, hm, Except.map, getErrorMessage]
  · intro p m hm
    simp [executeCommand, hm, Except.map, getErrorMessage]
  · intro p m hm
    simp [executeCommand, hm, Except.map, getErrorMessage]
  · exact executeCommand_isSome C w hset
  · intro client pending hok
    rcases processAll_spec C w hset client pending with ⟨calls, hcalls, hall⟩
    exact ⟨calls, by simp [pollCommands, hok, hcalls], hall⟩
  · intro client cmd m hm
    simp [processOneCommand, hm]

/-- The sample world settles: every spawned process closes with exit 0. -/
theorem sampleWorld_settles : settles sampleWorld := by
  intro spec
  exact ⟨ProcEvent.closed (some 0), by simp [sampleWorld], rfl⟩

/-- Witness for C3: the sample client has one pending command whose detail
fetch throws, yet the cycle completes, clears the flag, and submits a
failure result for it. -/
theorem C3_witness :
    ∃ calls, pollCommands sampleConstants sampleWorld sampleClient false
        = (some (PollCall.fetchPending :: calls), false)
      ∧ ∀ cmd ∈ [({ commandId := "c1", type := "file_read" } : PendingCmd)],
          ∃ r, PollCall.submit cmd.commandId r ∈ calls :=
  (C3_no_fault_escapes sampleConstants sampleWorld
      sampleWorld_settles).2.2.2.2.2.1
    sampleClient [{ commandId := "c1", type := "file_read" }] rfl

end AgentCli

namespace AgentCli

/-- The empty pattern is contained in every character list. -/
theorem containsAux_nil : ∀ l : List Char, containsAux [] l = true
  | [] => rfl
  | _ :: cs => by simp [containsAux, List.isPrefixOf]

/-- Containment in a list is preserved by appending on the right. -/
theorem containsAux_append {sub l : List Char} (t : List Char)
    (h : containsAux sub l = true) : containsAux sub (l ++ t) = true := by
  induction l with
  | nil =>
    have hsub : sub = [] := by
      cases sub with
      | nil => rfl
      | cons c cs => simp [containsAux, List.isEmpty] at h
    rw [hsub]
    exact containsAux_nil _
  | cons c cs ih =>
    simp only [containsAux, Bool.or_eq_true, List.cons_append] at h ⊢
    rcases h with h | h
    · exact Or.inl (by simpa using isPrefixOf_append_left t h)
    · exact Or.inr (ih h)

/-- Containment in a string is preserved by appending on the right. -/
theorem strContains_append (a b sub : String)
    (h : strContains a sub = true) : strContains (a ++ b) sub = true := by
  unfold strContains at h ⊢
  rw [String.data_append]
  exact containsAux_append b.data h

/-- C4 (amended): with a valid PID, a payload whose explicit signal is
outside the allow-list yields a failure whose error contains "not allowed"
and no kill call; a payload whose PID does not parse to a truthy positive
integer yields the Invalid PID failure and no kill call (this branch wins
even when the signal is also disallowed, which is the amendment); and with
a valid PID and an allow-listed signal the kill call is recorded exactly
once. -/
theorem C4_process_kill_allowlist (w : World) (p : Payload) :
    (∀ (q : ℚ) (sig : String), parseNumber p.pid = some q → 1 ≤ q → q.den = 1 →
      parseString p.signal = some sig → sig ∉ ALLOWED_SIGNALS →
      processKill w p
        = ({ success := false
             error := some ("Signal not allowed: " ++ sig ++ ". Allowed: "
               ++ String.intercalate (", ") ALLOWED_SIGNALS) }, [])
      ∧ strContains ("Signal not allowed: " ++ sig ++ ". Allowed: "
          ++ String.intercalate (", ") ALLOWED_SIGNALS) ("not allowed") = true)
    ∧ ((parseNumber p.pid = none ∨
        (∃ q, parseNumber p.pid = some q ∧ (q = 0 ∨ q < 1 ∨ q.den ≠ 1))) →
      processKill w p
        = ({ success := false
             error := some ("Invalid PID: must be a positive integer") }, []))
    ∧ (∀ (q : ℚ) (sig : String), parseNumber p.pid = some q → 1 ≤ q → q.den = 1 →
      (parseString p.signal).getD ("SIGTERM") = sig → sig ∈ ALLOWED_SIGNALS →
      (processKill w p).snd = [(q, sig)]) := by
  refine ⟨?_, ?_, ?_⟩
  · intro q sig hq h1 hden hsig hnot
    have hcond : ¬(q = 0 ∨ q < 1 ∨ q.den ≠ 1) := by
      rintro (h | h | h)
      · rw [h] at h1; norm_num at h1
      · linarith
      · exact h hden
    constructor
    · simp [processKill, hq, hcond, hsig, hnot]
    · exact strContains_append _ _ _ (strContains_append _ _ _
        (by decide : strContains ("Signal not allowed: ") ("not allowed") = true))
  · rintro (hq | ⟨q, hq, hbad⟩)
    · simp [processKill, hq]
    · simp [processKill, hq, hbad]
  · intro q sig hq h1 hden hsig hallow
    have hcond : ¬(q = 0 ∨ q < 1 ∨ q.den ≠ 1) := by
      rintro (h | h | h)
      · rw [h] at h1; norm_num at h1
      · linarith
      · exact h hden
    cases hk : w.killOutcome q sig <;>
      simp [processKill, hq, hcond, hsig, hallow, hk]

/-- Counterexample to C4 as frozen: on the payload with pid 0 and signal
SIGKILL the signal is outside the allow-list, yet the error is the Invalid
PID message, which does not contain "not allowed". -/
theorem C4_counterexample :
    ("SIGKILL" ∉ ALLOWED_SIGNALS)
    ∧ processKill sampleWorld { pid := JSValue.num 0, signal := JSValue.str ("SIGKILL") }
        = ({ success := false
             error := some ("Invalid PID: must be a positive integer") }, [])
    ∧ strContains ("Invalid PID: must be a positive integer") ("not allowed") = false := by
  refine ⟨by decide, by decide, by decide⟩

/-- Witness for C4 (amended) at pid 3 with SIGKILL: rejected with a
"not allowed" error and no kill call. -/
theorem C4_witness :
    processKill sampleWorld { pid := JSValue.num 3, signal := JSValue.str ("SIGKILL") }
      = ({ success := false
           error := some ("Signal not allowed: " ++ "SIGKILL" ++ ". Allowed: "
             ++ String.intercalate (", ") ALLOWED_SIGNALS) }, [])
    ∧ strContains ("Signal not allowed: " ++ "SIGKILL" ++ ". Allowed: "
        ++ String.intercalate (", ") ALLOWED_SIGNALS) ("not allowed") = true :=
  (C4_process_kill_allowlist sampleWorld
      { pid := JSValue.num 3, signal := JSValue.str ("SIGKILL") }).1
    3 ("SIGKILL") rfl (by norm_num) (by decide) (by decide) (by decide)

end AgentCli

namespace AgentCli

/-- C5: a numeric timeout outside [1, MAX_CMD_TIMEOUT] makes
execute_command return an early failure (Sum.inl, before any SpawnSpec is
produced, hence before any subprocess is spawned); an absent timeout field
gets the default CMD_DEFAULT_TIMEOUT and, when the other prechecks pass
and the default is within its documented bound, execution proceeds to the
spawn stage with that default. -/
theorem C5_timeout_bounds (C : Constants) (w : World) (p : Payload) :
    (∀ q : ℚ, parseNumber p.timeout = some q → (q < 1 ∨ q > C.MAX_CMD_TIMEOUT) →
      ∃ r, executeShellCommandPre C w.fs w.home p = Sum.inl r ∧ r.success = false
        ∧ executeCommand C w ("execute_command") p = some r)
    ∧ (∀ cmdStr : String, p.timeout = JSValue.undefined →
        1 ≤ C.CMD_DEFAULT_TIMEOUT → C.CMD_DEFAULT_TIMEOUT ≤ C.MAX_CMD_TIMEOUT →
        parseString p.command = some cmdStr → validateCommand cmdStr = none →
        validateFilePath w.fs w.home ((parseString p.cwd).getD w.home) = none →
        executeShellCommandPre C w.fs w.home p
          = Sum.inr { command := cmdStr
                      cwd := (parseString p.cwd).getD w.home
                      timeout := C.CMD_DEFAULT_TIMEOUT }) := by
  constructor
  · intro q hq hcond
    cases hc : parseString p.command with
    | none =>
      refine ⟨{ success := false, error := some ("No command specified") }, ?_, rfl, ?_⟩
      · simp [executeShellCommandPre, hc]
      · simp [executeCommand, executeShellCommand, executeShellCommandPre, hc]
    | some cmdStr =>
      cases hv : validateCommand cmdStr with
      | some e =>
        refine ⟨{ success := false, error := some e }, ?_, rfl, ?_⟩
        · simp [executeShellCommandPre, hc, hv]
        · simp [executeCommand, executeShellCommand, executeShellCommandPre, hc, hv]
      | none =>
        have hpre : executeShellCommandPre C w.fs w.home p
            = Sum.inl { success := false
                        error := some ("Timeout must be between 1 and "
                          ++ toString C.MAX_CMD_TIMEOUT ++ "ms") } := by
          simp only [executeShellCommandPre, hc, hv, hq, Option.getD_some]
          rw [if_pos hcond]
        refine ⟨_, hpre, rfl, ?_⟩
        simp [executeCommand, executeShellCommand, hpre]
  · intro cmdStr hund h1 h2 hc hv hcwd
    have hcond : ¬(C.CMD_DEFAULT_TIMEOUT < 1 ∨
        C.CMD_DEFAULT_TIMEOUT > C.MAX_CMD_TIMEOUT) := by
      rintro (h | h) <;> linarith
    simp only [executeShellCommandPre, hc, hv, hund, parseNumber, Option.getD_none]
    rw [if_neg hcond]
    simp [hcwd]

/-- Witness for C5: timeout 0 is rejected before the spawn stage. -/
theorem C5_witness :
    ∃ r, executeShellCommandPre sampleConstants sampleWorld.fs sampleWorld.home
          { command := JSValue.str ("echo hi"), timeout := JSValue.num 0 }
        = Sum.inl r
      ∧ r.success = false
      ∧ executeCommand sampleConstants sampleWorld ("execute_command")
          { command := JSValue.str ("echo hi"), timeout := JSValue.num 0 } = some r :=
  (C5_timeout_bounds sampleConstants sampleWorld
      { command := JSValue.str ("echo hi"), timeout := JSValue.num 0 }).1
    0 rfl (Or.inl (by norm_num))

end AgentCli

namespace AgentCli

/-- The accumulation invariant: the captured stream lengths never exceed
the cap, never exceed the byte counter, and agree with the counter while
it is still within the cap. -/
def outInv (C : Constants) (st : ShellState) : Prop :=
  st.stdout.length + st.stderr.length ≤ C.MAX_OUTPUT_SIZE
  ∧ st.stdout.length + st.stderr.length ≤ st.outputSize
  ∧ (st.outputSize ≤ C.MAX_OUTPUT_SIZE →
      st.stdout.length + st.stderr.length = st.outputSize)

/-- Every data event preserves the accumulation invariant. -/
theorem shellStep_outInv (C : Constants) (t : ℚ) (sc : String)
    {st : ShellState} {e : ProcEvent} (hd : isDataEvent e = true)
    (h : outInv C st) : outInv C (shellStep C t sc st e).fst := by
  rcases h with ⟨hcap, hle, heq⟩
  cases e with
  | out chunk =>
    by_cases hsz : st.outputSize + chunk.length ≤ C.MAX_OUTPUT_SIZE
    · have hinside : st.outputSize ≤ C.MAX_OUTPUT_SIZE :=
        le_trans (Nat.le_add_right _ _) hsz
      have hsum := heq hinside
      refine ⟨?_, ?_, ?_⟩ <;>
        simp only [shellStep, if_pos hsz, String.length_append]
      · omega
      · omega
      · intro _; omega
    · refine ⟨?_, ?_, ?_⟩ <;>
        simp only [shellStep, if_neg hsz]
      · exact hcap
      · omega
      · intro hc; omega
  | errOut chunk =>
    by_cases hsz : st.outputSize + chunk.length ≤ C.MAX_OUTPUT_SIZE
    · have hinside : st.outputSize ≤ C.MAX_OUTPUT_SIZE :=
        le_trans (Nat.le_add_right _ _) hsz
      have hsum := heq hinside
      refine ⟨?_, ?_, ?_⟩ <;>
        simp only [shellStep, if_pos hsz, String.length_append]
      · omega
      · omega
      · intro _; omega
    · refine ⟨?_, ?_, ?_⟩ <;>
        simp only [shellStep, if_neg hsz]
      · exact hcap
      · omega
      · intro hc; omega
  | timeoutFire => simp [isDataEvent] at hd
  | closed code => simp [isDataEvent] at hd
  | spawnErr code m => simp [isDataEvent] at hd

/-- Over a data-only stream the byte counter is the total delivered
length. -/
theorem runShell_outputSize (C : Constants) (t : ℚ) (sc : String) :
    ∀ (es : List ProcEvent) (st : ShellState), dataEventsOnly es →
      (runShell C t sc st es).fst.outputSize = st.outputSize + totalLen es := by
  intro es
  induction es with
  | nil => intro st _; simp [runShell, totalLen]
  | cons e es ih =>
    intro st hd
    have hde : isDataEvent e = true := hd e (List.mem_cons_self e es)
    have hrest : dataEventsOnly es := fun x hx => hd x (List.mem_cons_of_mem e hx)
    cases e with
    | out chunk =>
      simp only [runShell, totalLen]
      rw [ih _ hrest]
      simp [shellStep]
      omega
    | errOut chunk =>
      simp only [runShell, totalLen]
      rw [ih _ hrest]
      simp [shellStep]
      omega
    | timeoutFire => simp [isDataEvent] at hde
    | closed code => simp [isDataEvent] at hde
    | spawnErr code m => simp [isDataEvent] at hde

/-- The accumulation invariant is preserved over a data-only stream. -/
theorem runShell_outInv (C : Constants) (t : ℚ) (sc : String) :
    ∀ (es : List ProcEvent) (st : ShellState), dataEventsOnly es →
      outInv C st → outInv C (runShell C t sc st es).fst := by
  intro es
  induction es with
  | nil => intro st _ h; simpa [runShell] using h
  | cons e es ih =>
    intro st hd h
    have hde : isDataEvent e = true := hd e (List.mem_cons_self e es)
    have hrest : dataEventsOnly es := fun x hx => hd x (List.mem_cons_of_mem e hx)
    exact ih _ hrest (shellStep_outInv C t sc hde h)

/-- C6: over any data-only delivery the byte counter equals the total
output, the captured streams never exceed the cap, at the exact cap
boundary the captured length is exactly the total (no off-by-one loss or
growth), and once the total exceeds the cap further chunks are not
accumulated and the close handler appends the truncation marker to the
result data. -/
theorem C6_output_cap (C : Constants) (t : ℚ) (sc : String)
    (es : List ProcEvent) (hdata : dataEventsOnly es) :
    (runShell C t sc initShellState es).fst.outputSize = totalLen es
    ∧ (runShell C t sc initShellState es).fst.stdout.length
        + (runShell C t sc initShellState es).fst.stderr.length ≤ C.MAX_OUTPUT_SIZE
    ∧ (totalLen es ≤ C.MAX_OUTPUT_SIZE →
        (runShell C t sc initShellState es).fst.stdout.length
          + (runShell C t sc initShellState es).fst.stderr.length = totalLen es)
    ∧ (totalLen es > C.MAX_OUTPUT_SIZE →
        (∀ chunk : String,
          (shellStep C t sc (runShell C t sc initShellState es).fst
              (ProcEvent.out chunk)).fst.stdout
            = (runShell C t sc initShellState es).fst.stdout
          ∧ (shellStep C t sc (runShell C t sc initShellState es).fst
              (ProcEvent.errOut chunk)).fst.stderr
            = (runShell C t sc initShellState es).fst.stderr)
        ∧ ∀ code : Option Int,
            (closeResult C (runShell C t sc initShellState es).fst code).data
              = ResultData.str
                  ((runShell C t sc initShellState es).fst.stdout ++ truncationMarker)) := by
  have hsize := runShell_outputSize C t sc es initShellState hdata
  have hinit : outInv C initShellState := by
    refine ⟨by simp [initShellState], by simp [initShellState], by simp [initShellState]⟩
  have hinv := runShell_outInv C t sc es initShellState hdata hinit
  rcases hinv with ⟨hcap, hle, heq⟩
  have hsize0 : (runShell C t sc initShellState es).fst.outputSize = totalLen es := by
    simpa [initShellState] using hsize
  refine ⟨hsize0, hcap, ?_, ?_⟩
  · intro hb
    rw [← hsize0] at hb ⊢
    exact heq hb
  · intro hover
    have hover0 : (runShell C t sc initShellState es).fst.outputSize
        > C.MAX_OUTPUT_SIZE := by rw [hsize0]; exact hover
    refine ⟨?_, ?_⟩
    · intro chunk
      have h1 : ¬((runShell C t sc initShellState es).fst.outputSize + chunk.length
          ≤ C.MAX_OUTPUT_SIZE) := by omega
      constructor <;> simp [shellStep, if_neg h1]
    · intro code
      have htr : (runShell C t sc initShellState es).fst.outputSize
          > C.MAX_OUTPUT_SIZE := hover0
      by_cases hcode : code = some 0 <;>
        simp [closeResult, hcode, htr]

/-- Witness for C6 at a tiny cap of 4 bytes: two chunks totalling exactly
the cap are captured in full. -/
theorem C6_witness :
    (runShell tinyConstants 1000 ("/bin/sh") initShellState
        [ProcEvent.out ("ab"), ProcEvent.errOut ("cd")]).fst.stdout.length
      + (runShell tinyConstants 1000 ("/bin/sh") initShellState
        [ProcEvent.out ("ab"), ProcEvent.errOut ("cd")]).fst.stderr.length
      = totalLen [ProcEvent.out ("ab"), ProcEvent.errOut ("cd")] :=
  ((C6_output_cap tinyConstants 1000 ("/bin/sh")
      [ProcEvent.out ("ab"), ProcEvent.errOut ("cd")]
      (by unfold dataEventsOnly; decide)).2.2.1 (by decide))

end AgentCli

namespace AgentCli

/-- C8: a poll tick that fires while the single-flight flag is set returns
immediately — the trace is empty (zero network calls, zero executions)
and the flag is left to the in-flight cycle; a tick that enters the cycle
clears the flag when the cycle completes, both on the catch path (pending
fetch throws) and on the normal path under a settling world. -/
theorem C8_single_flight (C : Constants) (w : World) (client : PollClient) :
    pollCommands C w client true = (some [], true)
    ∧ (∀ m, client.getPendingCommands = Except.error m →
        pollCommands C w client false = (some [PollCall.fetchPending], false))
    ∧ (settles w → ∀ pending, client.getPendingCommands = Except.ok pending →
        ∃ calls, pollCommands C w client false
          = (some (PollCall.fetchPending :: calls), false)) := by
  refine ⟨by simp [pollCommands], ?_, ?_⟩
  · intro m hm
    simp [pollCommands, hm]
  · intro hset pending hok
    rcases processAll_spec C w hset client pending with ⟨calls, hcalls, -⟩
    exact ⟨calls, by simp [pollCommands, hok, hcalls]⟩

/-- Witness for C8: the flag is cleared even when the pending fetch
throws (catch path), and a tick under a set flag does nothing. -/
theorem C8_witness :
    pollCommands sampleConstants sampleWorld sampleErrClient true = (some [], true)
    ∧ pollCommands sampleConstants sampleWorld sampleErrClient false
        = (some [PollCall.fetchPending], false) :=
  ⟨(C8_single_flight sampleConstants sampleWorld sampleErrClient).1,
    (C8_single_flight sampleConstants sampleWorld sampleErrClient).2.1 ("net") rfl⟩

/-- A freshly cleared id is in the cleared set. -/
theorem mem_clearId_self (id : Nat) (cl : List Nat) : id ∈ clearId id cl := by
  unfold clearId
  split_ifs with h
  · exact h
  · exact List.mem_cons_self _ _

/-- Clearing never removes ids from the cleared set. -/
theorem mem_clearId_of_mem {x : Nat} (id : Nat) {cl : List Nat}
    (h : x ∈ cl) : x ∈ clearId id cl := by
  unfold clearId
  split_ifs
  · exact h
  · exact List.mem_cons_of_mem _ h

/-- Clearing an already-cleared id changes nothing. -/
theorem clearId_of_mem {id : Nat} {cl : List Nat} (h : id ∈ cl) :
    clearId id cl = cl := if_pos h

/-- C9: the stop closure is idempotent; every timer that is scheduled at
the moment stop is called (heartbeat or poll) is cancelled, so its
already-scheduled callback no longer starts work; and at a point before
registration has completed (both handles still null, so nothing is
scheduled yet) stop is a no-op on the handle state. -/
theorem C9_stop_idempotent_cancels :
    (∀ s : AgentHandle, stopAgent (stopAgent s) = stopAgent s)
    ∧ (∀ (s : AgentHandle) (id : Nat), s.heartbeatTimer = some id →
        timerFires (stopAgent s) id = false)
    ∧ (∀ (s : AgentHandle) (id : Nat), s.pollTimer = some id →
        timerFires (stopAgent s) id = false)
    ∧ (∀ s : AgentHandle, s.heartbeatTimer = none → s.pollTimer = none →
        stopAgent s = s) := by
  refine ⟨?_, ?_, ?_, ?_⟩
  · rintro ⟨hb, pt, cl⟩
    cases hb with
    | none =>
      cases pt with
      | none => rfl
      | some b =>
        simp [stopAgent, clearIntervalOn, clearId_of_mem (mem_clearId_self b cl)]
    | some a =>
      cases pt with
      | none =>
        simp [stopAgent, clearIntervalOn, clearId_of_mem (mem_clearId_self a cl)]
      | some b =>
        have ha : a ∈ clearId b (clearId a cl) :=
          mem_clearId_of_mem b (mem_clearId_self a cl)
        have hb2 : b ∈ clearId b (clearId a cl) := mem_clearId_self b _
        simp [stopAgent, clearIntervalOn, clearId_of_mem ha, clearId_of_mem hb2]
  · rintro ⟨hb, pt, cl⟩ id hhb
    cases hb with
    | none => exact absurd hhb (by simp)
    | some a =>
      have ha : a = id := by simpa using congrArg (fun o => o.getD 0) hhb
      subst ha
      have hm : a ∈ (stopAgent ⟨some a, pt, cl⟩).cleared := by
        cases pt with
        | none => exact mem_clearId_self a cl
        | some b =>
          exact mem_clearId_of_mem b (mem_clearId_self a cl)
      simp [timerFires, hm]
  · rintro ⟨hb, pt, cl⟩ id hpt
    cases pt with
    | none => exact absurd hpt (by simp)
    | some b =>
      have hb2 : b = id := by simpa using congrArg (fun o => o.getD 0) hpt
      subst hb2
      have hm : b ∈ (stopAgent ⟨hb, some b, cl⟩).cleared := by
        cases hb with
        | none => exact mem_clearId_self b cl
        | some a => exact mem_clearId_self b _
      simp [timerFires, hm]
  · rintro ⟨hb, pt, cl⟩ h1 h2
    simp only at h1 h2
    subst h1; subst h2
    rfl

/-- Witness for C9 at a registered handle: stop is idempotent and the
heartbeat timer scheduled at stop time no longer fires. -/
theorem C9_witness :
    stopAgent (stopAgent { heartbeatTimer := some 1, pollTimer := some 2 })
        = stopAgent { heartbeatTimer := some 1, pollTimer := some 2 }
    ∧ timerFires (stopAgent { heartbeatTimer := some 1, pollTimer := some 2 }) 1 = false :=
  ⟨C9_stop_idempotent_cancels.1 _,
    C9_stop_idempotent_cancels.2.1 { heartbeatTimer := some 1, pollTimer := some 2 } 1 rfl⟩

end AgentCli

namespace AgentCli

/-- C10: empty-string payload fields behave as absent at the public
interface — file_read and file_write fail with "No file path specified"
on an empty path (before any content check), execute_command fails with
"No command specified" on an empty command, process_kill with an empty
signal behaves exactly as with the signal field absent (falling back to
SIGTERM and attempting the kill once on a valid PID), and a non-numeric
timeout value makes the precheck identical to the absent-timeout case
(the default is applied silently, no rejection). -/
theorem C10_empty_fields_as_absent (C : Constants) (w : World) (p : Payload) :
    (p.path = JSValue.str ("") →
      executeCommand C w ("file_read") p
          = some { success := false, error := some ("No file path specified") }
      ∧ executeCommand C w ("file_write") p
          = some { success := false, error := some ("No file path specified") })
    ∧ (p.command = JSValue.str ("") →
      executeCommand C w ("execute_command") p
          = some { success := false, error := some ("No command specified") })
    ∧ (p.signal = JSValue.str ("") →
      processKill w p = processKill w { p with signal := JSValue.undefined }
      ∧ (∀ q : ℚ, parseNumber p.pid = some q → 1 ≤ q → q.den = 1 →
          (processKill w p).snd = [(q, "SIGTERM")]))
    ∧ (∀ s : String, p.timeout = JSValue.str s →
      executeShellCommandPre C w.fs w.home p
        = executeShellCommandPre C w.fs w.home { p with timeout := JSValue.undefined }) := by
  refine ⟨?_, ?_, ?_, ?_⟩
  · intro hpath
    have hp : parseString p.path = none := by rw [hpath]; rfl
    constructor <;>
      simp [executeCommand, fileRead, fileWrite, resolveAndValidatePath, hp,
        Option.orElse, Except.map, pure, Except.pure]
  · intro hcmd
    have hc : parseString p.command = none := by rw [hcmd]; rfl
    simp [executeCommand, executeShellCommand, executeShellCommandPre, hc]
  · intro hsig
    constructor
    · simp [processKill, hsig, parseString]
    · intro q hq h1 hden
      have hcond : ¬(q = 0 ∨ q < 1 ∨ q.den ≠ 1) := by
        rintro (h | h | h)
        · rw [h] at h1; norm_num at h1
        · linarith
        · exact h hden
      have hterm : ("SIGTERM" : String) ∈ ALLOWED_SIGNALS := by decide
      cases hk : w.killOutcome q ("SIGTERM") <;>
        simp [processKill, hq, hcond, hsig, parseString, hterm, hk]
  · intro s htime
    simp [executeShellCommandPre, htime, parseNumber]

/-- Witness for C10: all four empty-or-wrong-typed payload fields fall
back as the claim says, at concrete inputs. -/
theorem C10_witness :
    (executeCommand sampleConstants sampleWorld ("file_read")
        { path := JSValue.str ("") }
      = some { success := false, error := some ("No file path specified") })
    ∧ (executeCommand sampleConstants sampleWorld ("execute_command")
        { command := JSValue.str ("") }
      = some { success := false, error := some ("No command specified") })
    ∧ ((processKill sampleWorld
        { pid := JSValue.num 3, signal := JSValue.str ("") }).snd = [(3, "SIGTERM")])
    ∧ (executeShellCommandPre sampleConstants sampleWorld.fs sampleWorld.home
          { command := JSValue.str ("echo hi"), timeout := JSValue.str ("99") }
        = executeShellCommandPre sampleConstants sampleWorld.fs sampleWorld.home
          { command := JSValue.str ("echo hi"), timeout := JSValue.undefined }) :=
  ⟨((C10_empty_fields_as_absent sampleConstants sampleWorld
      { path := JSValue.str ("") }).1 rfl).1,
    (C10_empty_fields_as_absent sampleConstants sampleWorld
      { command := JSValue.str ("") }).2.1 rfl,
    ((C10_empty_fields_as_absent sampleConstants sampleWorld
      { pid := JSValue.num 3, signal := JSValue.str ("") }).2.2.1 rfl).2
      3 rfl (by norm_num) (by decide),
    (C10_empty_fields_as_absent sampleConstants sampleWorld
      { command := JSValue.str ("echo hi"), timeout := JSValue.str ("99") }).2.2.2
      ("99") rfl⟩

end AgentCli
